import Mathlib

/-!
Verification of the run/state synchronization core of the ai-hedge-fund
frontend, shallowly embedded in Lean 4.

Source files embedded:
- `src/app/frontend/src/nodes/components/start-node.tsx` (run start, event handler)
- `src/app/frontend/src/hooks/use-enhanced-flow-actions.ts` (save/load coordinator)

Collaborators whose implementation is not part of the embedded sources
(Node Status Store, Node Context Store, per-node internal-state layer,
flow persistence service, run-request stream) are modelled from the
specification; every such definition carries a doc comment saying so.

The file is organised as definitions first, then theorems.
-/

namespace HedgeFund

/-! ## Association lists

JS objects keyed by node id are modelled as association lists over `String`
keys; `lookupA` is property read, `insertA` is property write (overwrite in
place, append if absent). -/

/-- Read a key from an association list, first match wins. -/
def lookupA {α : Type} (k : String) : List (String × α) → Option α
  | [] => none
  | (k2, v) :: rest => if k2 = k then some v else lookupA k rest

/-- Write a key into an association list: overwrite the first occurrence in
place, append at the end if the key is absent. -/
def insertA {α : Type} (k : String) (v : α) : List (String × α) → List (String × α)
  | [] => [(k, v)]
  | (k2, v2) :: rest => if k2 = k then (k, v) :: rest else (k2, v2) :: insertA k v rest

/-! ## Node Status Store and the run-start status protocol

`RunStatus` and the store operations come from the spec (the store lives in
`node-status-context`, outside the embedded sources); the call sequence in
`handlePlay` comes from `start-node.tsx` lines 40 to 47. -/

/-- Run status of a node: IDLE, IN_PROGRESS, COMPLETE or ERROR. -/
inductive RunStatus where
  | IDLE
  | IN_PROGRESS
  | COMPLETE
  | ERROR
deriving DecidableEq, Repr

/-- The Node Status Store: a mapping from node id to run status. -/
structure StatusStore where
  entries : List (String × RunStatus)
deriving DecidableEq, Repr

/-- Modelled from the spec: `getStatus(nodeId)` returns `IDLE` if unset. -/
def getStatus (n : String) (s : StatusStore) : RunStatus :=
  (lookupA n s.entries).getD RunStatus.IDLE

/-- Modelled from the spec: `setStatus(nodeId, status)` is an unconditional
overwrite (called `updateNodeStatus` in the source). -/
def updateNodeStatus (n : String) (st : RunStatus) (s : StatusStore) : StatusStore :=
  ⟨insertA n st s.entries⟩

/-- Modelled from the spec: `resetAll()` sets every currently-tracked node id
to `IDLE` (called `resetAllStatuses` in the source). -/
def resetAllStatuses (s : StatusStore) : StatusStore :=
  ⟨s.entries.map (fun p => (p.1, RunStatus.IDLE))⟩

/-- Status-store effect of `handlePlay` in `start-node.tsx` lines 40 to 47:
`resetAllStatuses()` followed by `updateNodeStatus(id, IN_PROGRESS)`. -/
def handlePlayStatuses (id : String) (s : StatusStore) : StatusStore :=
  updateNodeStatus id RunStatus.IN_PROGRESS (resetAllStatuses s)

/-! ## Run sessions, event delivery and cancellation

`handlePlay` in `start-node.tsx` lines 40 to 79 starts a run: it resets the
status store, marks the initiating node `IN_PROGRESS`, aborts the previous
stream held in `abortControllerRef`, and registers a fresh event handler.
The handler body (lines 67 to 77) updates the status store on `complete`
and `error` events and contains no check that the event belongs to the
currently-live stream. -/

/-- A stream session opened by `handlePlay`: a generation number identifying
the connection, and the initiating node id captured by the handler closure. -/
structure Session where
  gen : Nat
  nodeId : String
deriving DecidableEq, Repr

/-- A streamed event delivered to a session handler: the session it belongs
to and its discriminating type tag. -/
structure StreamEvent where
  session : Session
  type : String
deriving DecidableEq, Repr

/-- Workspace state for the run lifecycle: the Node Status Store, the
`isProcessing` flag of the start node, the generation of the stream whose
abort handle is currently held in `abortControllerRef` (none after abort),
and a counter supplying fresh generations. -/
structure RunSys where
  statuses : StatusStore
  isProcessing : Bool
  live : Option Nat
  nextGen : Nat
deriving DecidableEq, Repr

/-- Initial run state: empty status store, not processing, no live stream. -/
def initRunSys : RunSys :=
  ⟨⟨[]⟩, false, none, 0⟩

/-- Embedding of `handlePlay` (`start-node.tsx` lines 40 to 79): set
`isProcessing`, reset all statuses, mark the initiating node `IN_PROGRESS`,
abort any existing connection, and open a new stream whose abort handle
replaces the old one. Returns the new state and the session the freshly
registered handler belongs to. -/
def handlePlayRun (id : String) (sys : RunSys) : RunSys × Session :=
  let session : Session := ⟨sys.nextGen, id⟩
  (⟨handlePlayStatuses id sys.statuses, true, some sys.nextGen, sys.nextGen + 1⟩, session)

/-- Embedding of the event handler registered by `handlePlay`
(`start-node.tsx` lines 67 to 77), invoked when a queued event of the given
stream is delivered. Modelled from the spec: the run-request collaborator
may deliver an event that was already queued when the stream was cancelled,
and liveness must then be checked by the application before applying it; the
source handler applies the event unconditionally, exactly as written. -/
def deliverEvent (ev : StreamEvent) (sys : RunSys) : RunSys :=
  if ev.type = "complete" then
    { sys with isProcessing := false,
               statuses := updateNodeStatus ev.session.nodeId RunStatus.COMPLETE sys.statuses }
  else if ev.type = "error" then
    { sys with isProcessing := false,
               statuses := updateNodeStatus ev.session.nodeId RunStatus.ERROR sys.statuses }
  else sys

/-- State after starting run R1 from the start node. -/
def sysAfterR1 : RunSys × Session := handlePlayRun "start-node" initRunSys

/-- State after immediately starting run R2 from the same start node,
which aborts the stream of R1. -/
def sysAfterR2 : RunSys × Session := handlePlayRun "start-node" sysAfterR1.1

/-- State after delivering a `complete` event of the stream of R1 that was
already queued when R2 started. -/
def sysAfterStaleComplete : RunSys :=
  deliverEvent ⟨sysAfterR1.2, "complete"⟩ sysAfterR2.1

/-! ## Flow persistence data model

Shapes from the spec section 6: persisted Flow records carry nodes whose
data bucket may hold an `internal_state` blob, and an auxiliary data bucket
that may hold a `nodeContextData` mapping. Opaque JS objects are modelled as
association lists of string keys and string values. -/

/-- An opaque serialized object (internal-state blob or context payload). -/
abbrev Blob := List (String × String)

/-- The data bucket of a node: declarative configuration plus the optional
`internal_state` key. -/
structure NodeData where
  config : List (String × String)
  internal_state : Option Blob
deriving DecidableEq, Repr

/-- A node of the graph: id, type tag and data bucket. -/
structure FlowNode where
  id : String
  type : String
  data : NodeData
deriving DecidableEq, Repr

/-- The auxiliary data bucket of a Flow record: opaque extra keys plus the
optional `nodeContextData` mapping. -/
structure FlowData where
  extra : List (String × String)
  nodeContextData : Option (List (String × Blob))
deriving DecidableEq, Repr

/-- A persisted Flow record. -/
structure Flow where
  id : Nat
  name : String
  description : String
  nodes : List FlowNode
  edges : List (String × String)
  data : FlowData
deriving DecidableEq, Repr

/-- The live workspace state the persistence coordinator manipulates: the
React Flow graph, the per-node internal-state layer of `use-node-state`, the
flow-scope identity of that layer, and the Node Context Store. -/
structure Workspace where
  graphNodes : List FlowNode
  internalStates : List (String × Blob)
  currentFlowId : Option String
  contextStore : List (String × Blob)
deriving DecidableEq, Repr

/-- Modelled from the spec: `getNodeInternalState(nodeId)` of the
`use-node-state` layer reads the blob stored for a node id, absent if never
set in the current scope. -/
def getNodeInternalState (id : String) (ws : Workspace) : Option Blob :=
  lookupA id ws.internalStates

/-- Modelled from the spec: `setNodeInternalState(nodeId, state)` writes the
blob for a node id into the `use-node-state` layer. -/
def setNodeInternalState (id : String) (b : Blob) (ws : Workspace) : Workspace :=
  { ws with internalStates := insertA id b ws.internalStates }

/-- Modelled from the spec: `clearAllNodeStates()` clears the per-node
internal-state layer. -/
def clearAllNodeStates (ws : Workspace) : Workspace :=
  { ws with internalStates := [] }

/-- Modelled from the spec: `setCurrentFlowId` sets the flow-scope identity
of the internal-state layer. -/
def setNodeStateFlowId (fid : String) (ws : Workspace) : Workspace :=
  { ws with currentFlowId := some fid }

/-- Modelled from the spec: `exportNodeContextData()` takes a deterministic
snapshot of the Node Context Store. -/
def exportNodeContextData (ws : Workspace) : List (String × Blob) :=
  ws.contextStore

/-- Modelled from the spec: `importNodeContextData(mapping)` replaces the
full contents of the Node Context Store. -/
def importNodeContextData (m : List (String × Blob)) (ws : Workspace) : Workspace :=
  { ws with contextStore := m }

/-- Modelled from the spec: `resetAllNodes()` clears every entry of the Node
Context Store. -/
def resetAllNodes (ws : Workspace) : Workspace :=
  { ws with contextStore := [] }

/-! ## The save coordinator

Embedding of `saveCurrentFlowWithCompleteState` in
`use-enhanced-flow-actions.ts` lines 22 to 72. The outcomes of the two
awaited collaborator calls (`saveCurrentFlow` and `flowService.updateFlow`)
are parameters, so every control-flow path of the source is covered. -/

/-- Outcome of the base `saveCurrentFlow` call: a saved Flow with the given
id, a null result, or a thrown error. -/
inductive BaseSaveOutcome where
  | ok (flowId : Nat)
  | noFlow
  | threw (e : String)
deriving DecidableEq, Repr

/-- Outcome of the `flowService.updateFlow` call: success (the collaborator
faithfully returns the merged record, per the spec section 6) or a thrown
error. -/
inductive UpdateOutcome where
  | ok
  | threw (e : String)
deriving DecidableEq, Repr

/-- Embedding of the per-node enhancement inside
`saveCurrentFlowWithCompleteState` (lines 31 to 41): spread the existing
data bucket and add an `internal_state` key only when the layer holds a
blob with at least one key; otherwise the data bucket is copied unchanged,
so a pre-existing `internal_state` key survives the spread. -/
def enhanceNode (ws : Workspace) (node : FlowNode) : FlowNode :=
  match getNodeInternalState node.id ws with
  | some s =>
      if 0 < s.length then
        { node with data := { node.data with internal_state := some s } }
      else node
  | none => node

/-- The enhanced node list of `saveCurrentFlowWithCompleteState` (line 31). -/
def nodesWithStates (ws : Workspace) : List FlowNode :=
  ws.graphNodes.map (enhanceNode ws)

/-- Modelled from the spec: the base save captures the live graph and
produces a saved Flow record with an id; its auxiliary data bucket has no
`nodeContextData` until the coordinator patches it. -/
def mkSavedFlow (fid : Nat) (name description : String) (nodes : List FlowNode) : Flow :=
  ⟨fid, name, description, nodes, [], ⟨[], none⟩⟩

/-- Body of `saveCurrentFlowWithCompleteState` inside the outer `try` (lines
24 to 67): snapshot the graph, export the context store, apply the enhanced
node list to the live graph, run the base save and the update inside an
inner `try` whose `finally` restores the original node list on every path. -/
def saveBody (bso : BaseSaveOutcome) (uo : UpdateOutcome) (name description : String)
    (ws : Workspace) : Except String (Option Flow) × Workspace :=
  let currentNodes := ws.graphNodes
  let nodeContextData := exportNodeContextData ws
  let enhanced := nodesWithStates ws
  let ws1 : Workspace := { ws with graphNodes := enhanced }
  match bso with
  | BaseSaveOutcome.threw e =>
      (Except.error e, { ws1 with graphNodes := currentNodes })
  | BaseSaveOutcome.noFlow =>
      (Except.ok none, { ws1 with graphNodes := currentNodes })
  | BaseSaveOutcome.ok fid =>
      let savedFlow := mkSavedFlow fid name description ws1.graphNodes
      match uo with
      | UpdateOutcome.threw e =>
          (Except.error e, { ws1 with graphNodes := currentNodes })
      | UpdateOutcome.ok =>
          let updatedFlow : Flow :=
            { savedFlow with
                data := { savedFlow.data with nodeContextData := some nodeContextData } }
          (Except.ok (some updatedFlow), { ws1 with graphNodes := currentNodes })

/-- Embedding of `saveCurrentFlowWithCompleteState` (lines 22 to 72): the
outer `catch` turns any thrown error into a `null` result, so the caller
only ever sees an optional Flow. -/
def saveCurrentFlowWithCompleteState (bso : BaseSaveOutcome) (uo : UpdateOutcome)
    (name description : String) (ws : Workspace) : Option Flow × Workspace :=
  match saveBody bso uo name description ws with
  | (Except.ok r, ws2) => (r, ws2)
  | (Except.error _, ws2) => (none, ws2)

/-! ## The load coordinator

Embedding of `loadFlowWithCompleteState` in `use-enhanced-flow-actions.ts`
lines 75 to 108. The outcome of the awaited base `loadFlow` call is a
parameter. -/

/-- Outcome of the base `loadFlow` call: success (the collaborator applies
the flow graph to React Flow) or a thrown error. -/
inductive BaseLoadOutcome where
  | ok
  | threw (e : String)
deriving DecidableEq, Repr

/-- Embedding of the restoration loop (lines 90 to 96): for each node of the
loaded flow whose data bucket carries an `internal_state` blob, write it
into the internal-state layer keyed by the node id. -/
def restoreInternalStates (nodes : List FlowNode) (ws : Workspace) : Workspace :=
  nodes.foldl
    (fun w n =>
      match n.data.internal_state with
      | some s => setNodeInternalState n.id s w
      | none => w)
    ws

/-- Embedding of `loadFlowWithCompleteState` (lines 75 to 108), in source
order: set the flow-scope identity, clear all internal state, reset the Node
Context Store, run the base load (which applies the flow graph), restore the
internal-state blobs, then import the persisted context mapping when
present. A thrown error is logged and re-thrown, never swallowed. -/
def loadFlowWithCompleteState (blo : BaseLoadOutcome) (flow : Flow)
    (ws : Workspace) : Except String Workspace :=
  let ws1 := setNodeStateFlowId (toString flow.id) ws
  let ws2 := clearAllNodeStates ws1
  let ws3 := resetAllNodes ws2
  match blo with
  | BaseLoadOutcome.threw e => Except.error e
  | BaseLoadOutcome.ok =>
      let ws4 : Workspace := { ws3 with graphNodes := flow.nodes }
      let ws5 := restoreInternalStates flow.nodes ws4
      let ws6 :=
        match flow.data.nodeContextData with
        | some m => importNodeContextData m ws5
        | none => ws5
      Except.ok ws6

/-! ## Ticker parsing and agent selection

From `handlePlay` in `start-node.tsx`: line 55 builds the ticker list, lines
58 to 60 build the `selected_agents` list, and line 109 disables the play
button. -/

/-- JS `split(",")` on the underlying character list: every comma is a
separator and empty segments are kept, so the result has one segment more
than the number of commas. -/
def splitComma (cs : List Char) : List (List Char) :=
  match cs with
  | [] => [[]]
  | c :: rest =>
    match splitComma rest with
    | [] => [[]]
    | seg :: segs => if c = ',' then [] :: seg :: segs else (c :: seg) :: segs

/-- JS `trim()` on the underlying character list: drop whitespace from both
ends. -/
def trimChars (cs : List Char) : List Char :=
  ((cs.dropWhile Char.isWhitespace).reverse.dropWhile Char.isWhitespace).reverse

/-- Embedding of `start-node.tsx` line 55: the submitted ticker list is the
input split on commas with each segment trimmed. -/
def tickerList (tickers : String) : List String :=
  (splitComma tickers.data).map (fun seg => ⟨trimChars seg⟩)

/-- Embedding of `start-node.tsx` lines 58 to 60: `selected_agents` maps the
graph nodes to their ids and removes falsy (empty-string) ids with
`filter(Boolean)`; no node-type based filtering happens despite the comment
above it. -/
def selectedAgents (nodes : List FlowNode) : List String :=
  (nodes.map (fun n => n.id)).filter (fun s => s != "")

/-- Embedding of the `disabled` condition on the play button
(`start-node.tsx` line 109): the run can be started only when not already
processing and the trimmed ticker input is non-empty (JS truthiness of the
trimmed string). -/
def canStart (isProcessing : Bool) (tickers : String) : Bool :=
  !isProcessing && !(trimChars tickers.data).isEmpty

/-! ## Concrete states used by witnesses and counterexamples -/

/-- A fresh workspace: empty graph, empty stores. -/
def wsFresh : Workspace := ⟨[], [], none, []⟩

/-- A workspace holding one node A with a non-empty internal-state blob and
a context entry for A, as in the round-trip scenario. -/
def wsRT : Workspace :=
  ⟨[⟨"A", "agent", ⟨[("name", "A")], none⟩⟩],
   [("A", [("x", "1")])],
   some "flow-0",
   [("A", [("msg", "hello")])]⟩

/-- The Flow record produced by saving `wsRT` with id 7. -/
def flowRT : Flow :=
  ⟨7, "n", "d",
   [⟨"A", "agent", ⟨[("name", "A")], some [("x", "1")]⟩⟩],
   [],
   ⟨[], some [("A", [("msg", "hello")])]⟩⟩

/-- The workspace obtained by loading `flowRT` into a fresh scope. -/
def wsRT2 : Workspace :=
  ⟨[⟨"A", "agent", ⟨[("name", "A")], some [("x", "1")]⟩⟩],
   [("A", [("x", "1")])],
   some "7",
   [("A", [("msg", "hello")])]⟩

/-- A workspace whose node A carries a pre-existing `internal_state` key in
its data bucket while the internal-state layer has no entry for A. -/
def wsStaleKey : Workspace :=
  ⟨[⟨"A", "agent", ⟨[("name", "A")], some [("x", "1")]⟩⟩], [], none, []⟩

/-- Node A of the enhancement witness: the layer holds a non-empty blob. -/
def nodeA : FlowNode := ⟨"A", "agent", ⟨[], none⟩⟩

/-- Node B of the enhancement witness: the layer holds an empty blob. -/
def nodeB : FlowNode := ⟨"B", "agent", ⟨[], none⟩⟩

/-- Workspace for the enhancement witness: layer entry A is non-empty, layer
entry B is the empty blob. -/
def wsEnh : Workspace :=
  ⟨[nodeA, nodeB], [("A", [("x", "1")]), ("B", [])], none, []⟩

/-- Flow F1 of the flow-switch scenario: carries a persisted context. -/
def flowF1 : Flow :=
  ⟨1, "f1", "", [⟨"A", "agent", ⟨[], none⟩⟩], [], ⟨[], some [("A", [("m", "p")])]⟩⟩

/-- Flow F2 of the flow-switch scenario: no persisted context. -/
def flowF2 : Flow :=
  ⟨2, "f2", "", [⟨"B", "agent", ⟨[], some [("y", "2")]⟩⟩], [], ⟨[], none⟩⟩

/-- The workspace after loading `flowF1` into a fresh scope. -/
def wsF1 : Workspace :=
  ⟨[⟨"A", "agent", ⟨[], none⟩⟩], [], some "1", [("A", [("m", "p")])]⟩

/-- The workspace after then loading `flowF2`. -/
def wsF2 : Workspace :=
  ⟨[⟨"B", "agent", ⟨[], some [("y", "2")]⟩⟩], [("B", [("y", "2")])], some "2", []⟩

/-- A graph containing a node with an empty-string id. -/
def graphEmptyId : List FlowNode :=
  [⟨"", "start", ⟨[], none⟩⟩, ⟨"agent-1", "agent", ⟨[], none⟩⟩]

/-- A graph whose node ids are all non-empty. -/
def graphAllIds : List FlowNode :=
  [⟨"start-node", "start", ⟨[], none⟩⟩, ⟨"agent-1", "agent", ⟨[], none⟩⟩]

/-! ## Helper lemmas -/

theorem lookupA_insertA_self {α : Type} (k : String) (v : α) (l : List (String × α)) :
    lookupA k (insertA k v l) = some v := by
  induction l with
  | nil => simp [insertA, lookupA]
  | cons p rest ih =>
    obtain ⟨k2, v2⟩ := p
    by_cases h : k2 = k
    · simp [insertA, lookupA, h]
    · simp [insertA, lookupA, h, ih]

theorem lookupA_insertA_ne {α : Type} {n k : String} (hne : n ≠ k) (v : α)
    (l : List (String × α)) : lookupA n (insertA k v l) = lookupA n l := by
  have hkn : k ≠ n := fun h => hne h.symm
  induction l with
  | nil => simp [insertA, lookupA, hkn]
  | cons p rest ih =>
    obtain ⟨k2, v2⟩ := p
    by_cases h : k2 = k
    · subst h
      simp [insertA, lookupA, hkn]
    · simp [insertA, lookupA, h, ih]

theorem lookupA_map_idle (n : String) (l : List (String × RunStatus)) :
    lookupA n (l.map (fun p => (p.1, RunStatus.IDLE)))
      = (lookupA n l).map (fun _ => RunStatus.IDLE) := by
  induction l with
  | nil => simp [lookupA]
  | cons p rest ih =>
    obtain ⟨k2, v2⟩ := p
    by_cases h : k2 = n
    · simp [lookupA, h]
    · simp [lookupA, h, ih]

theorem enhanceNode_id (ws : Workspace) (n : FlowNode) : (enhanceNode ws n).id = n.id := by
  unfold enhanceNode
  cases getNodeInternalState n.id ws with
  | none => rfl
  | some s => by_cases h : 0 < s.length <;> simp [h]

theorem map_id_map_enhance (ws : Workspace) (l : List FlowNode) :
    (l.map (enhanceNode ws)).map FlowNode.id = l.map FlowNode.id := by
  induction l with
  | nil => rfl
  | cons n rest ih => simp [enhanceNode_id, ih]

theorem restoreInternalStates_cons (n : FlowNode) (rest : List FlowNode) (ws : Workspace) :
    restoreInternalStates (n :: rest) ws
      = restoreInternalStates rest
          (match n.data.internal_state with
           | some s => setNodeInternalState n.id s ws
           | none => ws) := rfl

theorem restore_preserves (ns : List FlowNode) :
    ∀ ws : Workspace,
      (restoreInternalStates ns ws).graphNodes = ws.graphNodes
        ∧ (restoreInternalStates ns ws).contextStore = ws.contextStore
        ∧ (restoreInternalStates ns ws).currentFlowId = ws.currentFlowId := by
  induction ns with
  | nil => exact fun ws => ⟨rfl, rfl, rfl⟩
  | cons n rest ih =>
    intro ws
    rw [restoreInternalStates_cons]
    cases h : n.data.internal_state with
    | none => simpa [h] using ih ws
    | some s => simpa [h, setNodeInternalState] using ih (setNodeInternalState n.id s ws)

theorem restore_lookup_not_mem (ns : List FlowNode) :
    ∀ (ws : Workspace) (A : String), A ∉ ns.map FlowNode.id →
      lookupA A (restoreInternalStates ns ws).internalStates
        = lookupA A ws.internalStates := by
  induction ns with
  | nil => exact fun ws A _ => rfl
  | cons n rest ih =>
    intro ws A hA
    rw [List.map_cons, List.mem_cons] at hA
    push_neg at hA
    rw [restoreInternalStates_cons]
    cases h : n.data.internal_state with
    | none => exact ih ws A hA.2
    | some s =>
      rw [ih (setNodeInternalState n.id s ws) A hA.2]
      exact lookupA_insertA_ne hA.1 s ws.internalStates

theorem restore_lookup_mem (ns : List FlowNode) :
    ∀ (ws : Workspace) (n : FlowNode) (b : Blob),
      (ns.map FlowNode.id).Nodup → n ∈ ns → n.data.internal_state = some b →
      lookupA n.id (restoreInternalStates ns ws).internalStates = some b := by
  induction ns with
  | nil =>
    intro ws n b _ hmem _
    cases hmem
  | cons m rest ih =>
    intro ws n b hnd hmem hb
    rw [List.map_cons, List.nodup_cons] at hnd
    rw [restoreInternalStates_cons]
    rcases List.mem_cons.mp hmem with hEq | hTail
    · subst hEq
      rw [hb]
      rw [restore_lookup_not_mem rest _ n.id hnd.1]
      exact lookupA_insertA_self n.id b ws.internalStates
    · exact ih _ n b hnd.2 hTail hb

/-! ## Claim theorems -/

/-- C2: immediately after `handlePlay` starts a run from node `id`, that node
has status `IN_PROGRESS` and every other node id reads `IDLE`, whatever the
prior contents of the Node Status Store. -/
theorem handlePlay_statuses_fresh (s : StatusStore) (id n : String) :
    getStatus n (handlePlayStatuses id s)
      = if n = id then RunStatus.IN_PROGRESS else RunStatus.IDLE := by
  by_cases h : n = id
  · subst h
    simp [getStatus, handlePlayStatuses, updateNodeStatus, lookupA_insertA_self]
  · simp only [getStatus, handlePlayStatuses, updateNodeStatus, resetAllStatuses,
      lookupA_insertA_ne h, if_neg h]
    rw [lookupA_map_idle]
    cases lookupA n s.entries <;> rfl

/-- C1: evaluation of the code at the failing scenario. Start run R1 from
the start node, immediately start R2 (which aborts the stream of R1), then
deliver a `complete` event of the stream of R1 that was already queued. The
session of R1 is no longer the live one, yet the handler mutates the Node
Status Store: the start node, left `IN_PROGRESS` by R2, becomes `COMPLETE`.
The stale event is applied, not dropped, because the handler registered in
`handlePlay` performs no liveness check, so the claimed guarantee fails on
the code. -/
theorem stale_event_mutates_after_cancel :
    sysAfterR1.2.gen ≠ sysAfterR2.1.live.getD 0
      ∧ getStatus "start-node" sysAfterR2.1.statuses = RunStatus.IN_PROGRESS
      ∧ getStatus "start-node" sysAfterStaleComplete.statuses = RunStatus.COMPLETE
      ∧ sysAfterStaleComplete.statuses ≠ sysAfterR2.1.statuses := by
  refine ⟨by decide, by decide, by decide, by decide⟩

/-- C5: on every control-flow path of `saveCurrentFlowWithCompleteState`
(base save succeeds, returns no flow, or throws; update succeeds or throws),
the live graph ends up restored to the node list captured at the start, so
the save-time enhancement is never observable after the save returns. -/
theorem save_restores_graph (bso : BaseSaveOutcome) (uo : UpdateOutcome)
    (name description : String) (ws : Workspace) :
    (saveCurrentFlowWithCompleteState bso uo name description ws).2.graphNodes
      = ws.graphNodes := by
  cases bso <;> cases uo <;> rfl

/-- C7: when the base load throws, `loadFlowWithCompleteState` re-throws the
error to its caller, in contrast to `saveCurrentFlowWithCompleteState`,
which converts a thrown base-save error into a `null` result. -/
theorem load_rethrows_save_swallows (e : String) (flow : Flow) (ws : Workspace)
    (uo : UpdateOutcome) (name description : String) :
    loadFlowWithCompleteState (BaseLoadOutcome.threw e) flow ws = Except.error e
      ∧ (saveCurrentFlowWithCompleteState (BaseSaveOutcome.threw e) uo name description ws).1
          = none :=
  ⟨rfl, rfl⟩

/-- C3: save then load round trip. If at save time node A is in the graph
(with distinct node ids), the internal-state layer holds a non-empty blob b
for A, and the Node Context Store maps A to p, then saving with a faithful
persistence collaborator and loading the saved record into any fresh scope
restores the internal-state blob b and the context entry p for A. -/
theorem save_load_round_trip
    (ws wsF : Workspace) (fid : Nat) (name description : String)
    (A : String) (b p : Blob) (f : Flow) (ws2 : Workspace)
    (hnodup : (ws.graphNodes.map FlowNode.id).Nodup)
    (hA : A ∈ ws.graphNodes.map FlowNode.id)
    (hb : getNodeInternalState A ws = some b)
    (hbne : b ≠ [])
    (hp : lookupA A ws.contextStore = some p)
    (hsave : (saveCurrentFlowWithCompleteState (BaseSaveOutcome.ok fid) UpdateOutcome.ok
        name description ws).1 = some f)
    (hload : loadFlowWithCompleteState BaseLoadOutcome.ok f wsF = Except.ok ws2) :
    getNodeInternalState A ws2 = some b ∧ lookupA A ws2.contextStore = some p := by
  have hf : (⟨fid, name, description, nodesWithStates ws, [],
      ⟨[], some (exportNodeContextData ws)⟩⟩ : Flow) = f := Option.some.inj hsave
  subst hf
  have hws2 : importNodeContextData (exportNodeContextData ws)
      (restoreInternalStates (nodesWithStates ws)
        ⟨nodesWithStates ws, [], some (toString fid), []⟩) = ws2 := Except.ok.inj hload
  subst hws2
  obtain ⟨n0, hn0mem, hn0id⟩ := List.mem_map.mp hA
  have hb0 : getNodeInternalState n0.id ws = some b := by rw [hn0id]; exact hb
  have hlen : 0 < b.length := List.length_pos.mpr hbne
  have hEnh : (enhanceNode ws n0).data.internal_state = some b := by
    simp [enhanceNode, hb0, hlen]
  have hmemEnh : enhanceNode ws n0 ∈ nodesWithStates ws :=
    List.mem_map_of_mem (enhanceNode ws) hn0mem
  have hnodup2 : ((nodesWithStates ws).map FlowNode.id).Nodup := by
    unfold nodesWithStates
    rw [map_id_map_enhance]
    exact hnodup
  constructor
  · have hlook := restore_lookup_mem (nodesWithStates ws)
      ⟨nodesWithStates ws, [], some (toString fid), []⟩
      (enhanceNode ws n0) b hnodup2 hmemEnh hEnh
    have hid : (enhanceNode ws n0).id = A := by rw [enhanceNode_id]; exact hn0id
    rw [hid] at hlook
    exact hlook
  · exact hp

/-- C3 witness: the round trip evaluated at a concrete workspace and flow. -/
theorem save_load_round_trip_witness :
    getNodeInternalState "A" wsRT2 = some [("x", "1")]
      ∧ lookupA "A" wsRT2.contextStore = some [("msg", "hello")] :=
  save_load_round_trip wsRT wsFresh 7 "n" "d" "A" [("x", "1")] [("msg", "hello")]
    flowRT wsRT2 (by decide) (by decide) (by decide) (by decide) (by decide) rfl rfl

/-- C4 counterexample: in `wsStaleKey`, node A has no internal-state blob in
the layer, yet the enhanced node list produced at save time still carries an
`internal_state` key for A, because the data-bucket spread retains the
pre-existing key. This refutes the claim that the enhanced list contains no
`internal_state` key for every node whose blob is absent or empty. -/
theorem stale_internal_state_key_retained :
    getNodeInternalState "A" wsStaleKey = none
      ∧ (nodesWithStates wsStaleKey).map (fun n => n.data.internal_state)
          = [some [("x", "1")]] := by
  exact ⟨rfl, rfl⟩

/-- C4 amended: the enhancement never attaches a new `internal_state` key
for a node whose layer blob is absent or empty — such a node is passed
through completely unchanged, so a node whose data bucket lacked the key
stays without it, while a pre-existing key is retained as-is — and a key is
attached exactly when the layer blob is non-empty, carrying that blob. -/
theorem internal_state_attached_only_nonempty (ws : Workspace) (n : FlowNode) :
    ((getNodeInternalState n.id ws = none ∨ getNodeInternalState n.id ws = some ([] : Blob)) →
        enhanceNode ws n = n)
      ∧ (∀ b : Blob, getNodeInternalState n.id ws = some b → b ≠ [] →
          (enhanceNode ws n).data.internal_state = some b) := by
  constructor
  · rintro (h | h)
    · simp [enhanceNode, h]
    · simp [enhanceNode, h]
  · intro b hb hbne
    simp [enhanceNode, hb, List.length_pos.mpr hbne]

/-- C4 witness: the amended statement evaluated at a concrete workspace, one
node with an empty layer blob (unchanged) and one with a non-empty one
(key attached). -/
theorem internal_state_attached_only_nonempty_witness :
    enhanceNode wsEnh nodeB = nodeB
      ∧ (enhanceNode wsEnh nodeA).data.internal_state = some [("x", "1")] :=
  ⟨(internal_state_attached_only_nonempty wsEnh nodeB).1 (Or.inr rfl),
   (internal_state_attached_only_nonempty wsEnh nodeA).2 [("x", "1")] rfl (by decide)⟩

/-- C6: `saveCurrentFlowWithCompleteState` returns `none` whenever the base
save throws, the base save returns no flow, or the update call throws — its
return type carries no error, so no exception reaches the caller — and on
success it returns the updated Flow record with the saved id, the enhanced
node list, and the exported node-context mapping in its data bucket. -/
theorem save_null_on_failure (bso : BaseSaveOutcome) (uo : UpdateOutcome)
    (name description : String) (ws : Workspace) :
    (((∃ e, bso = BaseSaveOutcome.threw e) ∨ bso = BaseSaveOutcome.noFlow
        ∨ ∃ e, uo = UpdateOutcome.threw e) →
      (saveCurrentFlowWithCompleteState bso uo name description ws).1 = none)
    ∧ (∀ fid, bso = BaseSaveOutcome.ok fid → uo = UpdateOutcome.ok →
        ∃ f : Flow,
          (saveCurrentFlowWithCompleteState bso uo name description ws).1 = some f
            ∧ f.id = fid ∧ f.nodes = nodesWithStates ws
            ∧ f.data.nodeContextData = some (exportNodeContextData ws)) := by
  constructor
  · rintro (⟨e, rfl⟩ | rfl | ⟨e, rfl⟩)
    · cases uo <;> rfl
    · cases uo <;> rfl
    · cases bso <;> rfl
  · rintro fid rfl rfl
    exact ⟨_, rfl, rfl, rfl, rfl⟩

/-- C6 witness: a thrown base save yields `none`; a successful save yields
the updated Flow with the exported context mapping. -/
theorem save_null_on_failure_witness :
    (saveCurrentFlowWithCompleteState (BaseSaveOutcome.threw "boom") UpdateOutcome.ok
        "n" "d" wsFresh).1 = none
      ∧ ∃ f : Flow,
          (saveCurrentFlowWithCompleteState (BaseSaveOutcome.ok 7) UpdateOutcome.ok
              "n" "d" wsRT).1 = some f
            ∧ f.id = 7 ∧ f.nodes = nodesWithStates wsRT
            ∧ f.data.nodeContextData = some (exportNodeContextData wsRT) :=
  ⟨(save_null_on_failure (BaseSaveOutcome.threw "boom") UpdateOutcome.ok "n" "d"
      wsFresh).1 (Or.inl ⟨"boom", rfl⟩),
   (save_null_on_failure (BaseSaveOutcome.ok 7) UpdateOutcome.ok "n" "d" wsRT).2 7 rfl rfl⟩

/-- C8: loading flow F2 with no persisted context after loading flow F1
(which may have had context) leaves the Node Context Store empty — nothing
of F1 survives — while the graph is F2s node list and the flow-scope
identity is F2s id, reflecting the clear-before-load ordering of the
coordinator. -/
theorem flow_switch_isolation (ws ws1 ws2 : Workspace) (F1 F2 : Flow)
    (b1 b2 : BaseLoadOutcome)
    (_h1 : loadFlowWithCompleteState b1 F1 ws = Except.ok ws1)
    (hF2 : F2.data.nodeContextData = none)
    (h2 : loadFlowWithCompleteState b2 F2 ws1 = Except.ok ws2) :
    ws2.contextStore = [] ∧ ws2.graphNodes = F2.nodes
      ∧ ws2.currentFlowId = some (toString F2.id) := by
  obtain ⟨fid, fname, fdesc, fnodes, fedges, fextra, fctx⟩ := F2
  cases fctx with
  | some m => simp at hF2
  | none =>
    cases b2 with
    | threw e => exact Except.noConfusion h2
    | ok =>
      have hr : restoreInternalStates fnodes
          ⟨fnodes, [], some (toString fid), []⟩ = ws2 := Except.ok.inj h2
      subst hr
      have hpres := restore_preserves fnodes ⟨fnodes, [], some (toString fid), []⟩
      exact ⟨hpres.2.1.trans rfl, hpres.1.trans rfl, hpres.2.2.trans rfl⟩

/-- C8 witness: the flow-switch scenario evaluated at concrete flows F1
(with context) and F2 (without). -/
theorem flow_switch_isolation_witness :
    wsF2.contextStore = [] ∧ wsF2.graphNodes = flowF2.nodes
      ∧ wsF2.currentFlowId = some (toString flowF2.id) :=
  flow_switch_isolation wsFresh wsF1 wsF2 flowF1 flowF2 BaseLoadOutcome.ok BaseLoadOutcome.ok
    rfl rfl rfl

/-- C9 counterexample: on a graph containing a node with an empty-string id,
`selected_agents` is not the list of all node ids — `filter(Boolean)` drops
the falsy empty id — so the claim does not hold for every graph. -/
theorem selected_agents_drops_empty_id :
    selectedAgents graphEmptyId ≠ graphEmptyId.map (fun n => n.id) := by
  decide

/-- C9 amended: `selected_agents` equals the ids of all nodes currently in
the graph whenever every node id is non-empty (in particular the initiating
start node is never excluded, despite the in-source comment), and in general
it contains exactly the non-empty node ids. -/
theorem selected_agents_nonempty_ids (nodes : List FlowNode) :
    ((∀ n, n ∈ nodes → n.id ≠ "") → selectedAgents nodes = nodes.map (fun n => n.id))
      ∧ ∀ s, s ∈ selectedAgents nodes → s ∈ nodes.map (fun n => n.id) ∧ s ≠ "" := by
  constructor
  · intro h
    unfold selectedAgents
    apply List.filter_eq_self.mpr
    intro s hs
    obtain ⟨n, hn, rfl⟩ := List.mem_map.mp hs
    simpa using h n hn
  · intro s hs
    unfold selectedAgents at hs
    have hm := List.mem_filter.mp hs
    exact ⟨hm.1, by simpa using hm.2⟩

/-- C9 witness: on a graph whose ids are all non-empty, `selected_agents` is
exactly the full id list, start node included. -/
theorem selected_agents_nonempty_ids_witness :
    selectedAgents graphAllIds = graphAllIds.map (fun n => n.id) :=
  (selected_agents_nonempty_ids graphAllIds).1 (by decide)

/-- C10: the submitted ticker list splits the input on commas and trims each
segment, retaining empty segments, and a run cannot be started when the
trimmed input is empty (empty or whitespace-only input). -/
theorem ticker_parsing_and_gating :
    tickerList "AAPL,,MSFT" = ["AAPL", "", "MSFT"]
      ∧ tickerList " AAPL , msft " = ["AAPL", "msft"]
      ∧ ∀ (p : Bool) (s : String), trimChars s.data = [] → canStart p s = false := by
  refine ⟨by decide, by decide, ?_⟩
  intro p s hs
  unfold canStart
  rw [hs]
  simp

/-- C10 witness: with a whitespace-only ticker input the play button is
disabled, so the run cannot start. -/
theorem ticker_parsing_and_gating_witness : canStart false "   " = false :=
  ticker_parsing_and_gating.2.2 false "   " (by decide)

end HedgeFund
